import Mathlib

/-!
# Verification of the TSO Allocator Manager (`server/tso/allocator_manager.go`)

A shallow embedding of the allocator manager. External collaborators
(allocators, leadership handles, the election store) are modelled by their
observable behaviour: an `Allocator` is a record of the results its methods
would return, and stateful manager code is embedded as pure functions that
return both their result and the ordered list of observable `Event`s they
perform (method calls, lock transitions, deferred calls, cancellations).
The registry map is determinized as an association list with
insert-or-replace semantics.
-/

namespace PD

/-- Errors. `errGetAllocator` models `errs.ErrGetAllocator.FastGenByArgs(msg)`
(the manager's domain error); `other` stands for any error produced by an
external collaborator (allocator, election primitive). -/
inductive Err where
  | errGetAllocator (msg : String)
  | other (msg : String)
deriving DecidableEq

/-- Model of `pdpb.Timestamp`: a (physical, logical) pair. The zero value `⟨0, 0⟩`
models Go's `pdpb.Timestamp{}`. -/
structure Timestamp where
  physical : Int
  logical : Int
deriving DecidableEq

/-- An `election.Leadership` handle, modelled by the result of `Check()`.
`Reset()` is an observable event, not state. -/
structure Leadership where
  check : Bool
deriving DecidableEq

/-- The opaque `Allocator` interface, modelled by the results its methods
return: `Initialize() error`, `UpdateTSO() error`,
`GenerateTSO(count) (pdpb.Timestamp, error)`. `Reset()` is an event. -/
structure Allocator where
  initializeResult : Option Err
  updateTSO : Option Err
  generateTSO : Nat → Timestamp × Option Err

/-- A `LocalTSOAllocator`: an `Allocator` together with its DC label and the
result of `CampaignAllocatorLeader(lease)`. The watch/keepalive/ticker verbs
only appear as events in traces. -/
structure LocalTSOAllocator extends Allocator where
  dcLocation : String
  campaign : Option Err

/-- The `allocatorGroup` record. `parentCtxDone` is the observed state of
`parentCtx` (`true` means the select on `parentCtx.Done()` fires);
`parentCancel` is modelled as an event carrying the group's label. -/
structure AllocatorGroup where
  dcLocation : String
  parentCtxDone : Bool
  leadership : Leadership
  allocator : Allocator

/-- Observable events of the manager, in program order. `nilDeref` marks a Go
nil-pointer dereference (panic). -/
inductive Event where
  | rlockAcquire
  | rlockRelease
  | lockAcquire
  | lockRelease
  | mapLookup (dc : String)
  | generateTSOCall (dc : String) (count : Nat)
  | allocatorReset (dc : String)
  | leadershipReset (dc : String)
  | updateTSOCall (dc : String)
  | parentCancelCall (dc : String)
  | sleep200 (dc : String)
  | wgDone
  | campaignCall (dc : String)
  | keepAliveSpawn (dc : String)
  | initializeCall (dc : String)
  | enableAllocatorLeaderCall (dc : String)
  | servingLoop (dc : String)
  | cancelChildCall (dc : String)
  | leaderLoopSpawn (dc : String)
  | nilDeref
deriving DecidableEq

/-- Modelled from the spec: `config.GlobalDCLocation` is not under the
provided sources; the spec describes it as "the reserved sentinel string
identifying the Global allocator". Its concrete value is never used by the
theorems (labels are only ever compared with it). -/
def GlobalDCLocation : String := "global"

/-- Modelled from the spec: `pkg/slice.NoneOf` is not under the provided
sources; the spec reads "returns every group for which none of the supplied
filter predicates returns true". -/
def noneOf (filters : List (AllocatorGroup → Bool)) (ag : AllocatorGroup) : Bool :=
  !(filters.any fun f => f ag)

/-- Split a character list at every `/` (components as character lists). -/
def splitSlash : List Char → List (List Char)
  | [] => [[]]
  | c :: rest =>
    match splitSlash rest with
    | [] => [[c]]
    | comp :: comps =>
      if c = '/' then [] :: comp :: comps else (c :: comp) :: comps

/-- One step of Go `path.Clean`'s component processing (the standard stack
formulation of the lexical cleaning loop): empty and `.` components vanish,
`..` pops a non-`..` component, is dropped at the root, and is kept when
there is nothing to pop in a relative path. -/
def cleanPush (rooted : Bool) (stack : List (List Char)) (c : List Char) : List (List Char) :=
  if c = [] ∨ c = ['.'] then stack
  else if c = ['.', '.'] then
    match stack with
    | [] => if rooted then [] else [['.', '.']]
    | top :: rest => if top = ['.', '.'] then c :: top :: rest else rest
  else c :: stack

/-- Join components back with `/` separators. -/
def joinSlash : List (List Char) → List Char
  | [] => []
  | [c] => c
  | c :: rest => c ++ '/' :: joinSlash rest

/-- Go `path.Clean` (lexical processing of a slash-separated path). -/
def pathClean (p : String) : String :=
  if p = "" then "."
  else
    let chars := p.toList
    let rooted := chars.head? = some '/'
    let body := joinSlash ((splitSlash chars).foldl (cleanPush rooted) []).reverse
    if rooted then String.mk ('/' :: body)
    else if body = [] then "." else String.mk body

/-- Join a list of strings with `/` separators. -/
def joinStrings : List String → String
  | [] => ""
  | [s] => s
  | s :: rest => s ++ "/" ++ joinStrings rest

/-- Go `path.Join`: drop leading empty elements, join the rest with `/`, and
`Clean` the result; all-empty input yields the empty string. -/
def pathJoin (elems : List String) : String :=
  if elems.all (· = "") then ""
  else pathClean (joinStrings (elems.dropWhile (· = "")))

/-- The registry map `dc-location → *allocatorGroup`, determinized as an
association list. A `none` value models a nil pointer stored under a key. -/
abbrev Registry := List (String × Option AllocatorGroup)

/-- Go map read `v, exist := m[dc]`: `none` when absent, `some v` when
present (where `v` may itself be a nil pointer). -/
def lookupReg (reg : Registry) (dc : String) : Option (Option AllocatorGroup) :=
  match reg with
  | [] => none
  | kv :: rest => if kv.1 = dc then some kv.2 else lookupReg rest dc

/-- Go map write `m[dc] = v`: replace in place when present, append when
absent. -/
def insertReg (reg : Registry) (dc : String) (v : Option AllocatorGroup) : Registry :=
  match reg with
  | [] => [(dc, v)]
  | kv :: rest => if kv.1 = dc then (dc, v) :: rest else kv :: insertReg rest dc v

/-- The keys of a registry. -/
def regKeys (reg : Registry) : List String := reg.map Prod.fst

/-- The manager state the claims depend on: the group registry and the
configured `rootPath`. (`member`, `saveInterval` and `maxResetTSGap` are only
forwarded to the allocator constructors, which are abstracted by `Env`.) -/
structure AllocatorManager where
  allocatorGroups : Registry
  rootPath : String

/-- Embedding of `NewAllocatorManager`: empty registry. -/
def NewAllocatorManager (rootPath : String) : AllocatorManager :=
  { allocatorGroups := [], rootPath := rootPath }

/-- Embedding of `getAllocatorPath`: the Global allocator keeps the bare `rootPath` for
backward compatibility; a Local allocator uses `path.Join(rootPath, dc)`. -/
def getAllocatorPath (am : AllocatorManager) (dcLocation : String) : String :=
  if dcLocation = GlobalDCLocation then am.rootPath
  else pathJoin [am.rootPath, dcLocation]

/-- The allocator constructors consumed by `SetUpAllocator`
(`NewGlobalTSOAllocator` / `NewLocalTSOAllocator` live outside the manager):
an environment mapping the store path (and DC label) to the behaviour of the
constructed allocator. -/
structure Env where
  newGlobalTSOAllocator : String → Allocator
  newLocalTSOAllocator : String → String → LocalTSOAllocator

/-- The allocator `SetUpAllocator` constructs: the `var allocator Allocator`
dispatch on `dcLocation` at the top of the function. -/
def setupAllocatorOf (env : Env) (am : AllocatorManager) (dcLocation : String) : Allocator :=
  if dcLocation = GlobalDCLocation then
    env.newGlobalTSOAllocator (getAllocatorPath am dcLocation)
  else
    (env.newLocalTSOAllocator (getAllocatorPath am dcLocation) dcLocation).toAllocator

/-- The group written into the registry by `SetUpAllocator`. -/
def setupGroup (env : Env) (am : AllocatorManager) (parentCtxDone : Bool)
    (dcLocation : String) (leadership : Leadership) : AllocatorGroup :=
  { dcLocation := dcLocation, parentCtxDone := parentCtxDone,
    leadership := leadership, allocator := setupAllocatorOf env am dcLocation }

/-- Embedding of `SetUpAllocator(parentCtx, parentCancel, dcLocation,
leadership)`: construct the Global or Local allocator with `getAllocatorPath`,
register (insert-or-replace) the new group under the exclusive lock, then
either initialize synchronously (Global, returning the error of
`Initialize()`) or spawn the leader loop (Local, returning nil). Returns the
new manager state, the returned error, and the event trace; the deferred
`Unlock` releases the lock on every exit. -/
def SetUpAllocator (env : Env) (am : AllocatorManager) (parentCtxDone : Bool)
    (dcLocation : String) (leadership : Leadership) :
    AllocatorManager × Option Err × List Event :=
  let group : AllocatorGroup := setupGroup env am parentCtxDone dcLocation leadership
  let am2 := { am with allocatorGroups := insertReg am.allocatorGroups dcLocation (some group) }
  if dcLocation = GlobalDCLocation then
    -- `am.allocatorGroups[dcLocation].allocator` reads back the group just
    -- written, i.e. exactly `group`.
    (am2, group.allocator.initializeResult,
      [Event.lockAcquire, Event.initializeCall dcLocation, Event.lockRelease])
  else
    (am2, none,
      [Event.lockAcquire, Event.leaderLoopSpawn dcLocation, Event.lockRelease])

/-- Embedding of `resetAllocatorGroup(dcLocation)`: under the exclusive lock, when the
group is present, `allocator.Reset()` then `leadership.Reset()`; nothing when
absent; a nil stored pointer would be dereferenced. -/
def resetAllocatorGroupEvents (reg : Registry) (dcLocation : String) : List Event :=
  [Event.lockAcquire] ++
  (match lookupReg reg dcLocation with
   | some (some _) => [Event.allocatorReset dcLocation, Event.leadershipReset dcLocation]
   | some none => [Event.nilDeref]
   | none => []) ++
  [Event.lockRelease]

/-- Embedding of `updateAllocator(ag)`, the per-tick worker. `wg.Done()` is deferred so
it is the last event on every path. If `parentCtx` is done: reset the
allocator (only) and return. If leadership is not held: sleep 200ms and
return. Otherwise `UpdateTSO()`; on error, `parentCancel()`. -/
def updateAllocatorEvents (ag : AllocatorGroup) : List Event :=
  (if ag.parentCtxDone then
    [Event.allocatorReset ag.dcLocation]
   else if !ag.leadership.check then
    [Event.sleep200 ag.dcLocation]
   else
    match ag.allocator.updateTSO with
    | some _ => [Event.updateTSOCall ag.dcLocation, Event.parentCancelCall ag.dcLocation]
    | none => [Event.updateTSOCall ag.dcLocation]) ++
  [Event.wgDone]

/-- Embedding of `campaignAllocatorLeader(parentCtx, allocator)`. On campaign
failure,
return at once. On success, `defer cancel()` then
`defer am.resetAllocatorGroup(dc)` are registered (so on every exit the
deferred calls run in LIFO order: reset first, then cancel of the child
scope), the keepalive worker is spawned, and `Initialize()` is called; on
failure the function returns; on success the leader is enabled and the 50ms
ticker loop runs until lease loss or child-context cancellation (abstracted
as the single `servingLoop` event — the loop itself performs no further
manager events before returning). -/
def campaignAllocatorLeaderEvents (reg : Registry) (a : LocalTSOAllocator) : List Event :=
  match a.campaign with
  | some _ => [Event.campaignCall a.dcLocation]
  | none =>
    [Event.campaignCall a.dcLocation, Event.keepAliveSpawn a.dcLocation,
     Event.initializeCall a.dcLocation] ++
    (match a.initializeResult with
     | some _ => []
     | none => [Event.enableAllocatorLeaderCall a.dcLocation, Event.servingLoop a.dcLocation]) ++
    resetAllocatorGroupEvents reg a.dcLocation ++
    [Event.cancelChildCall a.dcLocation]

/-- Embedding of `HandleTSORequest(dcLocation, count)`: `RLock`, `defer RUnlock`, map
lookup; absent yields `ErrGetAllocator` with the DC label in the message;
present forwards to `GenerateTSO(count)` — note the deferred `RUnlock` runs
only after `GenerateTSO` returns. Result `none` models the panic on a nil
stored pointer. -/
def HandleTSORequest (reg : Registry) (dcLocation : String) (count : Nat) :
    Option (Timestamp × Option Err) × List Event :=
  match lookupReg reg dcLocation with
  | none =>
    (some (⟨0, 0⟩, some (Err.errGetAllocator
        (dcLocation ++ " allocator not found, generate timestamp failed"))),
     [Event.rlockAcquire, Event.mapLookup dcLocation, Event.rlockRelease])
  | some none =>
    (none, [Event.rlockAcquire, Event.mapLookup dcLocation, Event.nilDeref, Event.rlockRelease])
  | some (some ag) =>
    (some (ag.allocator.generateTSO count),
     [Event.rlockAcquire, Event.mapLookup dcLocation,
      Event.generateTSOCall dcLocation count, Event.rlockRelease])

/-- Embedding of `getAllocatorGroups(filters...)`: iterate the registry under the shared
lock, skip nil entries, and keep every group on which `slice.NoneOf` of the
filters holds. The result is a fresh list of the group pointers. -/
def getAllocatorGroups (reg : Registry) (filters : List (AllocatorGroup → Bool)) :
    List (Option AllocatorGroup) :=
  match reg with
  | [] => []
  | kv :: rest =>
    match kv.2 with
    | none => getAllocatorGroups rest filters
    | some ag =>
      if noneOf filters ag then some ag :: getAllocatorGroups rest filters
      else getAllocatorGroups rest filters

/-- The registered groups of a registry: the values stored under some key,
excluding nil pointers. -/
def registeredGroups (reg : Registry) : List AllocatorGroup :=
  reg.filterMap Prod.snd

/-- The loop body of `GetAllocators`: read `ag.allocator` off every returned
pointer; dereferencing a nil pointer would panic (`none`). -/
def derefAllocators : List (Option AllocatorGroup) → Option (List Allocator)
  | [] => some []
  | none :: _ => none
  | some ag :: rest => (derefAllocators rest).map (ag.allocator :: ·)

/-- Embedding of `GetAllocators(filters...)`: allocator references of the filtered
enumeration. -/
def GetAllocators (reg : Registry) (filters : List (AllocatorGroup → Bool)) :
    Option (List Allocator) :=
  derefAllocators (getAllocatorGroups reg filters)

/-- A `SetUpAllocator` call's arguments (the cancellation scope is abstracted
to the observed done-state of `parentCtx`). -/
structure SetupCall where
  parentCtxDone : Bool
  dcLocation : String
  leadership : Leadership

/-- Apply a sequence of `SetUpAllocator` calls to a manager state. -/
def applySetups (env : Env) (am : AllocatorManager) : List SetupCall → AllocatorManager
  | [] => am
  | c :: rest =>
    applySetups env (SetUpAllocator env am c.parentCtxDone c.dcLocation c.leadership).1 rest

/-- Statement of the reset-pairing claim on `resetAllocatorGroup`: whenever
that path resets a group's allocator, it also resets its leadership. -/
def ResetPairingOnResetGroup : Prop :=
  ∀ (reg : Registry) (dc : String),
    Event.allocatorReset dc ∈ resetAllocatorGroupEvents reg dc →
    Event.leadershipReset dc ∈ resetAllocatorGroupEvents reg dc

/-- Statement of the reset-pairing claim on the update worker: whenever
`updateAllocator` resets a group's allocator, the group's leadership is reset
as well. -/
def ResetPairingOnUpdatePath : Prop :=
  ∀ ag : AllocatorGroup,
    Event.allocatorReset ag.dcLocation ∈ updateAllocatorEvents ag →
    Event.leadershipReset ag.dcLocation ∈ updateAllocatorEvents ag

/-- Statement of the dispatcher-locking claim: for every DC present in the
registry, any `GenerateTSO` call in the trace of `HandleTSORequest` occurs
strictly after the shared lock's release. -/
def GenerateAfterUnlockClaim : Prop :=
  ∀ (reg : Registry) (dc : String) (count : Nat),
    (∃ v, lookupReg reg dc = some v) →
    ∀ i j, (HandleTSORequest reg dc count).2.get? i = some (Event.generateTSOCall dc count) →
      (HandleTSORequest reg dc count).2.get? j = some Event.rlockRelease →
      j < i

/-- A concrete healthy allocator used by witnesses. -/
def okAllocator : Allocator :=
  { initializeResult := none, updateTSO := none,
    generateTSO := fun c => (⟨100, Int.ofNat c⟩, none) }

/-- A concrete allocator whose `UpdateTSO` fails, used by witnesses. -/
def badUpdateAllocator : Allocator :=
  { initializeResult := none, updateTSO := some (Err.other "etcd write rejected"),
    generateTSO := fun _ => (⟨0, 0⟩, some (Err.other "not leader")) }

/-- A concrete healthy group registered under `dc-1`. -/
def sampleGroup : AllocatorGroup :=
  { dcLocation := "dc-1", parentCtxDone := false,
    leadership := ⟨true⟩, allocator := okAllocator }

/-- A concrete group whose leadership check fails, registered under `dc-2`. -/
def unledGroup : AllocatorGroup :=
  { dcLocation := "dc-2", parentCtxDone := false,
    leadership := ⟨false⟩, allocator := okAllocator }

/-- A concrete group whose parent context has been cancelled. -/
def cancelledGroup : AllocatorGroup :=
  { dcLocation := "dc-1", parentCtxDone := true,
    leadership := ⟨true⟩, allocator := okAllocator }

/-- A concrete group whose `UpdateTSO` fails while it holds leadership. -/
def failingGroup : AllocatorGroup :=
  { dcLocation := "dc-1", parentCtxDone := false,
    leadership := ⟨true⟩, allocator := badUpdateAllocator }

/-- A concrete registry with a healthy entry, a nil entry and an unled
entry. -/
def sampleRegistry : Registry :=
  [("dc-1", some sampleGroup), ("dc-nil", none), ("dc-2", some unledGroup)]

/-- A concrete filter excluding groups without leadership (the shape of
`FilterUnavailableLeadership`). -/
def unavailableLeadershipFilter : AllocatorGroup → Bool :=
  fun ag => !ag.leadership.check

/-- A concrete environment of allocator constructors: the Global constructor
builds an allocator whose `Initialize` fails, the Local one a healthy
allocator. -/
def envW : Env :=
  { newGlobalTSOAllocator := fun _ =>
      { initializeResult := some (Err.other "load timestamp failed"), updateTSO := none,
        generateTSO := fun c => (⟨1, Int.ofNat c⟩, none) },
    newLocalTSOAllocator := fun _ dc =>
      { initializeResult := none, updateTSO := none,
        generateTSO := fun c => (⟨2, Int.ofNat c⟩, none),
        dcLocation := dc, campaign := none } }

/-- A concrete local allocator whose campaign succeeds and whose
initialization fails. -/
def campInitFailAllocator : LocalTSOAllocator :=
  { initializeResult := some (Err.other "sync timestamp failed"), updateTSO := none,
    generateTSO := fun c => (⟨3, Int.ofNat c⟩, none),
    dcLocation := "dc-1", campaign := none }

/-! ### Helper lemmas -/

theorem lookupReg_insertReg_self (reg : Registry) (dc : String) (v : Option AllocatorGroup) :
    lookupReg (insertReg reg dc v) dc = some v := by
  induction reg with
  | nil => simp [insertReg, lookupReg]
  | cons kv rest ih =>
    by_cases h : kv.1 = dc
    · simp [insertReg, h, lookupReg]
    · simp [insertReg, h, lookupReg, ih]

theorem lookupReg_mem (reg : Registry) (dc : String) (v : Option AllocatorGroup)
    (h : lookupReg reg dc = some v) : (dc, v) ∈ reg := by
  induction reg with
  | nil => simp [lookupReg] at h
  | cons kv rest ih =>
    by_cases hk : kv.1 = dc
    · rw [lookupReg, if_pos hk] at h
      injection h with h2
      have hkv : kv = (dc, v) := by
        cases kv with
        | mk a b => simp_all
      rw [← hkv]
      exact List.mem_cons_self _ _
    · rw [lookupReg, if_neg hk] at h
      exact List.mem_cons_of_mem _ (ih h)

theorem regKeys_insertReg (reg : Registry) (dc : String) (v : Option AllocatorGroup) :
    regKeys (insertReg reg dc v) =
      if dc ∈ regKeys reg then regKeys reg else regKeys reg ++ [dc] := by
  induction reg with
  | nil => simp [insertReg, regKeys]
  | cons kv rest ih =>
    by_cases h : kv.1 = dc
    · simp [insertReg, h, regKeys]
    · have h2 : ¬ dc = kv.1 := fun hc => h hc.symm
      simp only [insertReg, if_neg h, regKeys, List.map_cons] at ih ⊢
      rw [ih]
      have hmem : (dc ∈ kv.1 :: List.map Prod.fst rest) ↔ (dc ∈ List.map Prod.fst rest) := by
        simp [List.mem_cons, h2]
      by_cases hm : dc ∈ List.map Prod.fst rest
      · rw [if_pos hm, if_pos (hmem.mpr hm)]
      · rw [if_neg hm, if_neg (fun hc => hm (hmem.mp hc))]
        simp

theorem regKeys_insertReg_nodup (reg : Registry) (dc : String) (v : Option AllocatorGroup)
    (h : (regKeys reg).Nodup) : (regKeys (insertReg reg dc v)).Nodup := by
  rw [regKeys_insertReg]
  split
  · exact h
  · next hm => simp [List.nodup_append, h, hm]

theorem getAllocatorGroups_eq (reg : Registry) (filters : List (AllocatorGroup → Bool)) :
    getAllocatorGroups reg filters
      = ((registeredGroups reg).filter (fun g => noneOf filters g)).map some := by
  induction reg with
  | nil => rfl
  | cons kv rest ih =>
    cases h2 : kv.2 with
    | none => simpa [getAllocatorGroups, registeredGroups, List.filterMap_cons, h2] using ih
    | some ag =>
      by_cases hf : noneOf filters ag <;>
        simpa [getAllocatorGroups, registeredGroups, List.filterMap_cons, h2, hf] using ih

theorem derefAllocators_map_some (l : List AllocatorGroup) :
    derefAllocators (l.map some) = some (l.map (fun g => g.allocator)) := by
  induction l with
  | nil => rfl
  | cons g rest ih => simp [derefAllocators, ih]

theorem SetUpAllocator_fst (env : Env) (am : AllocatorManager) (pcd : Bool)
    (dc : String) (lead : Leadership) :
    (SetUpAllocator env am pcd dc lead).1.allocatorGroups =
      insertReg am.allocatorGroups dc (some (setupGroup env am pcd dc lead)) := by
  unfold SetUpAllocator
  split <;> rfl

theorem applySetups_nodup (env : Env) (calls : List SetupCall) :
    ∀ am : AllocatorManager, (regKeys am.allocatorGroups).Nodup →
      (regKeys (applySetups env am calls).allocatorGroups).Nodup := by
  induction calls with
  | nil => intro am h; exact h
  | cons c rest ih =>
    intro am h
    rw [applySetups]
    apply ih
    rw [SetUpAllocator_fst]
    exact regKeys_insertReg_nodup _ _ _ h

theorem applySetups_keys_toFinset (env : Env) (calls : List SetupCall) :
    ∀ am : AllocatorManager,
      (regKeys (applySetups env am calls).allocatorGroups).toFinset =
        (regKeys am.allocatorGroups).toFinset ∪ (calls.map SetupCall.dcLocation).toFinset := by
  induction calls with
  | nil => intro am; simp [applySetups]
  | cons c rest ih =>
    intro am
    rw [applySetups, ih, SetUpAllocator_fst, regKeys_insertReg]
    by_cases hm : c.dcLocation ∈ regKeys am.allocatorGroups
    · rw [if_pos hm]
      ext x
      simp only [Finset.mem_union, List.mem_toFinset, List.map_cons, List.mem_cons]
      constructor
      · rintro (h | h)
        · exact Or.inl h
        · exact Or.inr (Or.inr h)
      · rintro (h | h | h)
        · exact Or.inl h
        · exact Or.inl (h ▸ hm)
        · exact Or.inr h
    · rw [if_neg hm]
      ext x
      simp only [Finset.mem_union, List.mem_toFinset, List.mem_append, List.map_cons,
        List.mem_cons, List.mem_singleton]
      tauto

/-! ### Claim theorems -/

/-- C2: for every group processed by the per-tick update worker whose
`parentCtx` is not cancelled and whose `leadership.Check()` is true: if
`UpdateTSO()` fails, the worker calls `parentCancel()` and returns (the trace
is exactly the update call, the cancellation, and the deferred `wg.Done()`);
if `UpdateTSO()` succeeds, `parentCancel` is never invoked. -/
theorem updateAllocator_fatal (ag : AllocatorGroup)
    (h1 : ag.parentCtxDone = false) (h2 : ag.leadership.check = true) :
    (∀ e, ag.allocator.updateTSO = some e →
      updateAllocatorEvents ag =
        [Event.updateTSOCall ag.dcLocation, Event.parentCancelCall ag.dcLocation,
         Event.wgDone]) ∧
    (ag.allocator.updateTSO = none →
      updateAllocatorEvents ag = [Event.updateTSOCall ag.dcLocation, Event.wgDone] ∧
      Event.parentCancelCall ag.dcLocation ∉ updateAllocatorEvents ag) := by
  constructor
  · intro e he
    simp [updateAllocatorEvents, h1, h2, he]
  · intro he
    constructor <;> simp [updateAllocatorEvents, h1, h2, he]

/-- Witness for C2: evaluated on a group whose `UpdateTSO` fails and on a
healthy one. -/
theorem updateAllocator_fatal_witness :
    updateAllocatorEvents failingGroup =
      [Event.updateTSOCall "dc-1", Event.parentCancelCall "dc-1", Event.wgDone] ∧
    Event.parentCancelCall "dc-1" ∉ updateAllocatorEvents sampleGroup :=
  ⟨(updateAllocator_fatal failingGroup rfl rfl).1 (Err.other "etcd write rejected") rfl,
   ((updateAllocator_fatal sampleGroup rfl rfl).2 rfl).2⟩

/-- C7: the filtered enumeration returns exactly the registered (non-nil)
groups on which no supplied filter predicate returns true, in registry order,
and nothing else; and `NoneOf` of the filters holds on a group precisely when
every filter returns `false` on it. -/
theorem getAllocatorGroups_exact (reg : Registry) (filters : List (AllocatorGroup → Bool)) :
    getAllocatorGroups reg filters
      = ((registeredGroups reg).filter (fun g => noneOf filters g)).map some ∧
    ∀ g : AllocatorGroup, noneOf filters g = true ↔ ∀ f ∈ filters, f g = false := by
  refine ⟨getAllocatorGroups_eq reg filters, ?_⟩
  intro g
  simp [noneOf, List.any_eq_true]

/-- Witness for C7: on a concrete registry (healthy entry, nil entry, entry
without leadership) with the unavailable-leadership filter, enumeration keeps
exactly the healthy group, and the filter indeed returns false on it. -/
theorem getAllocatorGroups_exact_witness :
    getAllocatorGroups sampleRegistry [unavailableLeadershipFilter] = [some sampleGroup] ∧
    (∀ f ∈ [unavailableLeadershipFilter], f sampleGroup = false) := by
  have h := getAllocatorGroups_exact sampleRegistry [unavailableLeadershipFilter]
  exact ⟨by rw [h.1]; rfl, (h.2 sampleGroup).mp rfl⟩

/-- C10: the filtered enumeration never returns a nil group pointer — every
element of `getAllocatorGroups` is `some` group even when a nil value is
stored in the registry — and consequently `GetAllocators`, which dereferences
every returned pointer, never hits a nil dereference. -/
theorem getAllocatorGroups_no_nil (reg : Registry) (filters : List (AllocatorGroup → Bool)) :
    (∀ x ∈ getAllocatorGroups reg filters, ∃ g, x = some g) ∧
    ∃ l, GetAllocators reg filters = some l := by
  constructor
  · intro x hx
    rw [getAllocatorGroups_eq] at hx
    obtain ⟨a, -, rfl⟩ := List.mem_map.mp hx
    exact ⟨a, rfl⟩
  · rw [GetAllocators, getAllocatorGroups_eq, derefAllocators_map_some]
    exact ⟨_, rfl⟩

/-- Witness for C10: evaluated on the concrete registry containing a stored
nil entry, with no filters. -/
theorem getAllocatorGroups_no_nil_witness :
    (∃ g, (some sampleGroup : Option AllocatorGroup) = some g) ∧
    ∃ l, GetAllocators sampleRegistry [] = some l :=
  ⟨(getAllocatorGroups_no_nil sampleRegistry []).1 (some sampleGroup)
    (by rw [show getAllocatorGroups sampleRegistry [] =
          [some sampleGroup, some unledGroup] from rfl]
        exact List.mem_cons_self _ _),
   (getAllocatorGroups_no_nil sampleRegistry []).2⟩

/-- C9: the per-allocator persistence path is the bare `rootPath` for the
reserved Global label and the Go `path.Join` of `rootPath` and the label for
every other label. -/
theorem getAllocatorPath_cases (am : AllocatorManager) (dcLocation : String) :
    (dcLocation = GlobalDCLocation → getAllocatorPath am dcLocation = am.rootPath) ∧
    (dcLocation ≠ GlobalDCLocation →
      getAllocatorPath am dcLocation = pathJoin [am.rootPath, dcLocation]) := by
  constructor <;> intro h <;> simp [getAllocatorPath, h]

/-- Witness for C9: evaluated at a concrete root path on the Global label and
on a local label (exercising the `path.Join` model). -/
theorem getAllocatorPath_cases_witness :
    getAllocatorPath ⟨[], "/pd/root"⟩ GlobalDCLocation = "/pd/root" ∧
    getAllocatorPath ⟨[], "/pd/root"⟩ "dc-1" = "/pd/root/dc-1" :=
  ⟨(getAllocatorPath_cases ⟨[], "/pd/root"⟩ GlobalDCLocation).1 rfl,
   by rw [(getAllocatorPath_cases ⟨[], "/pd/root"⟩ "dc-1").2 (by decide)]; rfl⟩

/-- C4: the dispatcher returns `ErrGetAllocator` carrying the DC label
exactly when the label is absent from the registry, and otherwise forwards
the registered group's `GenerateTSO(count)` result unchanged. Hypotheses: the
registry holds no nil pointer (true of every state the manager builds), and
the allocator's own errors are never the manager's `ErrGetAllocator` domain
error (the allocator is an external collaborator). -/
theorem HandleTSORequest_result (reg : Registry) (dcLocation : String) (count : Nat)
    (hwf : ∀ p ∈ reg, p.2 ≠ none)
    (hgen : ∀ ag m, lookupReg reg dcLocation = some (some ag) →
      (ag.allocator.generateTSO count).2 ≠ some (Err.errGetAllocator m)) :
    ((HandleTSORequest reg dcLocation count).1 =
        some (⟨0, 0⟩, some (Err.errGetAllocator
          (dcLocation ++ " allocator not found, generate timestamp failed")))
      ↔ lookupReg reg dcLocation = none) ∧
    (∀ ag, lookupReg reg dcLocation = some (some ag) →
      (HandleTSORequest reg dcLocation count).1 = some (ag.allocator.generateTSO count)) := by
  cases h : lookupReg reg dcLocation with
  | none => simp [HandleTSORequest, h]
  | some v =>
    cases v with
    | none => exact absurd rfl (hwf (dcLocation, none) (lookupReg_mem reg dcLocation none h))
    | some ag =>
      have hres : (HandleTSORequest reg dcLocation count).1 =
          some (ag.allocator.generateTSO count) := by
        simp [HandleTSORequest, h]
      refine ⟨⟨fun heq => ?_, fun hn => by simp [h] at hn⟩, fun ag2 h2 => ?_⟩
      · rw [hres] at heq
        injection heq with heq2
        exact absurd (congrArg Prod.snd heq2) (hgen ag _ h)
      · injection h2 with h4
        injection h4 with h5
        rw [← h5]
        exact hres

/-- Witness for C4: evaluated on a concrete registry, for a registered label
and an unknown one. -/
theorem HandleTSORequest_result_witness :
    (HandleTSORequest [("dc-1", some sampleGroup)] "dc-1" 5).1 = some (⟨100, 5⟩, none) ∧
    (HandleTSORequest [("dc-1", some sampleGroup)] "dc-east" 1).1 =
      some (⟨0, 0⟩, some (Err.errGetAllocator
        "dc-east allocator not found, generate timestamp failed")) := by
  have hwf1 : ∀ p ∈ ([("dc-1", some sampleGroup)] : Registry), p.2 ≠ none := by
    intro p hp
    rw [List.mem_singleton] at hp
    rw [hp]
    simp
  have hgen1 : ∀ ag m, lookupReg [("dc-1", some sampleGroup)] "dc-1" = some (some ag) →
      (ag.allocator.generateTSO 5).2 ≠ some (Err.errGetAllocator m) := by
    intro ag m hl
    have hl2 : (some (some sampleGroup) : Option (Option AllocatorGroup)) = some (some ag) := hl
    injection hl2 with hl3
    injection hl3 with hl4
    rw [← hl4]
    intro hc
    have hc2 : (none : Option Err) = some (Err.errGetAllocator m) := hc
    exact Option.noConfusion hc2
  have hgen2 : ∀ ag m, lookupReg [("dc-1", some sampleGroup)] "dc-east" = some (some ag) →
      (ag.allocator.generateTSO 1).2 ≠ some (Err.errGetAllocator m) := by
    intro ag m hl
    have hl2 : (none : Option (Option AllocatorGroup)) = some (some ag) := hl
    exact Option.noConfusion hl2
  constructor
  · rw [(HandleTSORequest_result [("dc-1", some sampleGroup)] "dc-1" 5 hwf1 hgen1).2
      sampleGroup rfl]
    rfl
  · exact (HandleTSORequest_result [("dc-1", some sampleGroup)] "dc-east" 1 hwf1 hgen2).1.mpr
      rfl

/-- C3 counterexample: the claim that `GenerateTSO` is performed after the
shared lock has been released is false at a concrete one-entry registry: the
trace of `HandleTSORequest` there is `[RLock, lookup, GenerateTSO, RUnlock]`,
with the allocator call at index 2 strictly before the release at index 3
(the deferred `RUnlock` runs only after `GenerateTSO` returns). -/
theorem HandleTSORequest_lock_counterexample : ¬ GenerateAfterUnlockClaim := by
  intro h
  have := h [("dc-1", some sampleGroup)] "dc-1" 1 ⟨some sampleGroup, rfl⟩ 2 3 rfl rfl
  omega

/-- C3 amended: `HandleTSORequest` acquires the shared lock, performs the map
lookup, and — when the label is registered — calls `GenerateTSO(count)` while
still holding the shared lock, which the deferred `RUnlock` releases only
after the allocator call returns; when the label is absent the lock is held
only across the lookup. -/
theorem HandleTSORequest_lock_held (reg : Registry) (dcLocation : String) (count : Nat) :
    (lookupReg reg dcLocation = none →
      (HandleTSORequest reg dcLocation count).2 =
        [Event.rlockAcquire, Event.mapLookup dcLocation, Event.rlockRelease]) ∧
    (∀ ag, lookupReg reg dcLocation = some (some ag) →
      (HandleTSORequest reg dcLocation count).2 =
        [Event.rlockAcquire, Event.mapLookup dcLocation,
         Event.generateTSOCall dcLocation count, Event.rlockRelease]) := by
  constructor
  · intro h
    simp [HandleTSORequest, h]
  · intro ag h
    simp [HandleTSORequest, h]

/-- Witness for C3 (amended): evaluated on a concrete registry for a present
and an absent label. -/
theorem HandleTSORequest_lock_held_witness :
    (HandleTSORequest [("dc-1", some sampleGroup)] "dc-1" 1).2 =
      [Event.rlockAcquire, Event.mapLookup "dc-1",
       Event.generateTSOCall "dc-1" 1, Event.rlockRelease] ∧
    (HandleTSORequest [("dc-1", some sampleGroup)] "dc-east" 1).2 =
      [Event.rlockAcquire, Event.mapLookup "dc-east", Event.rlockRelease] :=
  ⟨(HandleTSORequest_lock_held [("dc-1", some sampleGroup)] "dc-1" 1).2 sampleGroup rfl,
   (HandleTSORequest_lock_held [("dc-1", some sampleGroup)] "dc-east" 1).1 rfl⟩

/-- C1 counterexample: it is not the case that every manager code path that
resets a group's allocator also resets its leadership: on the update worker's
path for a cancelled `parentCtx`, `allocator.Reset()` is called but
`leadership.Reset()` is not (witnessed by a concrete cancelled group, whose
worker trace is `[allocator.Reset, wg.Done]`). -/
theorem resetPairing_counterexample :
    ¬ (ResetPairingOnResetGroup ∧ ResetPairingOnUpdatePath) := by
  rintro ⟨-, h⟩
  have hmem : Event.allocatorReset cancelledGroup.dcLocation ∈
      updateAllocatorEvents cancelledGroup := by
    rw [show updateAllocatorEvents cancelledGroup =
        [Event.allocatorReset "dc-1", Event.wgDone] from rfl]
    exact List.mem_cons_self _ _
  have hled := h cancelledGroup hmem
  rw [show updateAllocatorEvents cancelledGroup =
      [Event.allocatorReset "dc-1", Event.wgDone] from rfl] at hled
  simp at hled

/-- C1 amended: `resetAllocatorGroup` pairs `allocator.Reset()` with
`leadership.Reset()` within the same exclusive critical section; but the
update worker's path for a cancelled `parentCtx` resets only the allocator —
its whole trace is `[allocator.Reset, wg.Done]`, with no leadership reset. -/
theorem reset_pairing_amended :
    ResetPairingOnResetGroup ∧
    (∀ ag : AllocatorGroup, ag.parentCtxDone = true →
      updateAllocatorEvents ag = [Event.allocatorReset ag.dcLocation, Event.wgDone] ∧
      Event.leadershipReset ag.dcLocation ∉ updateAllocatorEvents ag) := by
  constructor
  · intro reg dc hmem
    unfold resetAllocatorGroupEvents at hmem ⊢
    cases h : lookupReg reg dc with
    | none => simp [h] at hmem
    | some v =>
      cases v with
      | none => simp [h] at hmem
      | some ag => simp [h]
  · intro ag h
    refine ⟨by simp [updateAllocatorEvents, h], ?_⟩
    simp [updateAllocatorEvents, h]

/-- Witness for C1 (amended): the paired reset evaluated on a concrete
registry, and the unpaired allocator-only reset on a concrete cancelled
group. -/
theorem reset_pairing_amended_witness :
    Event.leadershipReset "dc-1" ∈ resetAllocatorGroupEvents [("dc-1", some sampleGroup)] "dc-1" ∧
    updateAllocatorEvents cancelledGroup = [Event.allocatorReset "dc-1", Event.wgDone] :=
  ⟨reset_pairing_amended.1 [("dc-1", some sampleGroup)] "dc-1"
    (by rw [show resetAllocatorGroupEvents [("dc-1", some sampleGroup)] "dc-1" =
          [Event.lockAcquire, Event.allocatorReset "dc-1", Event.leadershipReset "dc-1",
           Event.lockRelease] from rfl]
        simp),
   (reset_pairing_amended.2 cancelledGroup rfl).1⟩

/-- C5: `SetUpAllocator` on the reserved Global label initializes the new
allocator synchronously (the trace contains the `Initialize` call) and
returns exactly the error of `Initialize()`, while the freshly constructed
group stays registered under the label regardless of that error; on any other
label it returns nil without any initialization, spawning the leader loop
instead, with the group registered as well. -/
theorem SetUpAllocator_spec (env : Env) (am : AllocatorManager) (pcd : Bool)
    (dc : String) (lead : Leadership) :
    (dc = GlobalDCLocation →
      (SetUpAllocator env am pcd dc lead).2.1 =
        (env.newGlobalTSOAllocator (getAllocatorPath am dc)).initializeResult ∧
      Event.initializeCall dc ∈ (SetUpAllocator env am pcd dc lead).2.2 ∧
      lookupReg (SetUpAllocator env am pcd dc lead).1.allocatorGroups dc =
        some (some (setupGroup env am pcd dc lead))) ∧
    (dc ≠ GlobalDCLocation →
      (SetUpAllocator env am pcd dc lead).2.1 = none ∧
      Event.initializeCall dc ∉ (SetUpAllocator env am pcd dc lead).2.2 ∧
      Event.leaderLoopSpawn dc ∈ (SetUpAllocator env am pcd dc lead).2.2 ∧
      lookupReg (SetUpAllocator env am pcd dc lead).1.allocatorGroups dc =
        some (some (setupGroup env am pcd dc lead))) := by
  constructor
  · intro h
    refine ⟨?_, ?_, ?_⟩
    · simp [SetUpAllocator, setupGroup, setupAllocatorOf, h]
    · simp [SetUpAllocator, h]
    · rw [SetUpAllocator_fst]
      exact lookupReg_insertReg_self _ _ _
  · intro h
    refine ⟨?_, ?_, ?_, ?_⟩
    · simp [SetUpAllocator, h]
    · simp [SetUpAllocator, h]
    · simp [SetUpAllocator, h]
    · rw [SetUpAllocator_fst]
      exact lookupReg_insertReg_self _ _ _

/-- Witness for C5: evaluated in a concrete environment whose Global
constructor yields an allocator failing `Initialize`: the error is surfaced
yet the group stays registered; a local label returns nil. -/
theorem SetUpAllocator_spec_witness :
    (SetUpAllocator envW (NewAllocatorManager "/pd") false GlobalDCLocation ⟨true⟩).2.1 =
      some (Err.other "load timestamp failed") ∧
    lookupReg (SetUpAllocator envW (NewAllocatorManager "/pd") false GlobalDCLocation
        ⟨true⟩).1.allocatorGroups GlobalDCLocation =
      some (some (setupGroup envW (NewAllocatorManager "/pd") false GlobalDCLocation ⟨true⟩)) ∧
    (SetUpAllocator envW (NewAllocatorManager "/pd") false "dc-1" ⟨true⟩).2.1 = none := by
  have hg := (SetUpAllocator_spec envW (NewAllocatorManager "/pd") false GlobalDCLocation
    ⟨true⟩).1 rfl
  have hl := (SetUpAllocator_spec envW (NewAllocatorManager "/pd") false "dc-1" ⟨true⟩).2
    (by decide)
  exact ⟨by rw [hg.1]; rfl, hg.2.2, hl.1⟩

/-- C6: in the campaign helper for a Local group, once
`CampaignAllocatorLeader` succeeds, every exit of the helper runs the
deferred `resetAllocatorGroup(dc)` followed by the cancellation of the child
scope; when the label is registered this resets both the group's allocator
and its leadership; and in particular when `Initialize()` fails after a
successful campaign the whole trace is campaign, keepalive spawn, the failed
initialization, then the paired reset under the exclusive lock and the child
cancellation. -/
theorem campaignAllocatorLeader_teardown (reg : Registry) (a : LocalTSOAllocator)
    (hc : a.campaign = none) :
    (∃ pre, campaignAllocatorLeaderEvents reg a =
        pre ++ resetAllocatorGroupEvents reg a.dcLocation ++
          [Event.cancelChildCall a.dcLocation]) ∧
    (∀ ag, lookupReg reg a.dcLocation = some (some ag) →
      Event.allocatorReset a.dcLocation ∈ campaignAllocatorLeaderEvents reg a ∧
      Event.leadershipReset a.dcLocation ∈ campaignAllocatorLeaderEvents reg a ∧
      Event.cancelChildCall a.dcLocation ∈ campaignAllocatorLeaderEvents reg a) ∧
    (∀ e, a.initializeResult = some e →
      ∀ ag, lookupReg reg a.dcLocation = some (some ag) →
        campaignAllocatorLeaderEvents reg a =
          [Event.campaignCall a.dcLocation, Event.keepAliveSpawn a.dcLocation,
           Event.initializeCall a.dcLocation, Event.lockAcquire,
           Event.allocatorReset a.dcLocation, Event.leadershipReset a.dcLocation,
           Event.lockRelease, Event.cancelChildCall a.dcLocation]) := by
  refine ⟨?_, ?_, ?_⟩
  · cases hi : a.initializeResult with
    | some e =>
      exact ⟨[Event.campaignCall a.dcLocation, Event.keepAliveSpawn a.dcLocation,
        Event.initializeCall a.dcLocation],
        by simp [campaignAllocatorLeaderEvents, hc, hi]⟩
    | none =>
      exact ⟨[Event.campaignCall a.dcLocation, Event.keepAliveSpawn a.dcLocation,
        Event.initializeCall a.dcLocation, Event.enableAllocatorLeaderCall a.dcLocation,
        Event.servingLoop a.dcLocation],
        by simp [campaignAllocatorLeaderEvents, hc, hi]⟩
  · intro ag hl
    cases hi : a.initializeResult with
    | some e =>
      refine ⟨?_, ?_, ?_⟩ <;>
        simp [campaignAllocatorLeaderEvents, hc, hi, resetAllocatorGroupEvents, hl]
    | none =>
      refine ⟨?_, ?_, ?_⟩ <;>
        simp [campaignAllocatorLeaderEvents, hc, hi, resetAllocatorGroupEvents, hl]
  · intro e hi ag hl
    simp [campaignAllocatorLeaderEvents, hc, hi, resetAllocatorGroupEvents, hl]

/-- Witness for C6: evaluated on a concrete local allocator whose campaign
succeeds and whose initialization fails, over a registry where its group is
registered: the trace ends with the paired reset and the child-scope
cancellation. -/
theorem campaignAllocatorLeader_teardown_witness :
    campaignAllocatorLeaderEvents [("dc-1", some sampleGroup)] campInitFailAllocator =
      [Event.campaignCall "dc-1", Event.keepAliveSpawn "dc-1", Event.initializeCall "dc-1",
       Event.lockAcquire, Event.allocatorReset "dc-1", Event.leadershipReset "dc-1",
       Event.lockRelease, Event.cancelChildCall "dc-1"] :=
  (campaignAllocatorLeader_teardown [("dc-1", some sampleGroup)] campInitFailAllocator rfl).2.2
    (Err.other "sync timestamp failed") rfl sampleGroup rfl

/-- C8: applying any sequence of `SetUpAllocator` calls to a fresh manager
leaves the registry with pairwise-distinct DC labels and size equal to the
number of distinct labels supplied; and a call whose label is already
registered replaces the entry in place — the registry size is unchanged and
the label now maps to the newly constructed group. -/
theorem SetUpAllocator_unique_registration :
    (∀ (env : Env) (rootPath : String) (calls : List SetupCall),
      (regKeys (applySetups env (NewAllocatorManager rootPath) calls).allocatorGroups).Nodup ∧
      (applySetups env (NewAllocatorManager rootPath) calls).allocatorGroups.length =
        (calls.map SetupCall.dcLocation).toFinset.card) ∧
    (∀ (env : Env) (am : AllocatorManager) (pcd : Bool) (dc : String) (lead : Leadership),
      dc ∈ regKeys am.allocatorGroups →
      (SetUpAllocator env am pcd dc lead).1.allocatorGroups.length =
        am.allocatorGroups.length ∧
      lookupReg (SetUpAllocator env am pcd dc lead).1.allocatorGroups dc =
        some (some (setupGroup env am pcd dc lead))) := by
  constructor
  · intro env rootPath calls
    have h0 : regKeys (NewAllocatorManager rootPath).allocatorGroups = [] := rfl
    have hn := applySetups_nodup env calls (NewAllocatorManager rootPath)
      (by rw [h0]; exact List.nodup_nil)
    have hf := applySetups_keys_toFinset env calls (NewAllocatorManager rootPath)
    rw [h0] at hf
    simp only [List.toFinset_nil, Finset.empty_union] at hf
    refine ⟨hn, ?_⟩
    have hlen : (applySetups env (NewAllocatorManager rootPath) calls).allocatorGroups.length =
        (regKeys (applySetups env (NewAllocatorManager rootPath) calls).allocatorGroups).length :=
      (List.length_map _ _).symm
    rw [hlen, ← List.toFinset_card_of_nodup hn, hf]
  · intro env am pcd dc lead hmem
    constructor
    · rw [SetUpAllocator_fst]
      have hk := regKeys_insertReg am.allocatorGroups dc
        (some (setupGroup env am pcd dc lead))
      rw [if_pos hmem] at hk
      have : (regKeys (insertReg am.allocatorGroups dc
          (some (setupGroup env am pcd dc lead)))).length =
          (regKeys am.allocatorGroups).length := by rw [hk]
      simpa [regKeys] using this
    · rw [SetUpAllocator_fst]
      exact lookupReg_insertReg_self _ _ _

/-- Witness for C8: a concrete sequence with a repeated label yields a
registry of size 2, and re-setup of an existing label keeps the size at 1. -/
theorem SetUpAllocator_unique_registration_witness :
    (applySetups envW (NewAllocatorManager "/pd")
      [⟨false, "dc-1", ⟨true⟩⟩, ⟨false, "global", ⟨true⟩⟩,
       ⟨false, "dc-1", ⟨false⟩⟩]).allocatorGroups.length = 2 ∧
    (SetUpAllocator envW ⟨[("dc-1", some sampleGroup)], "/pd"⟩ false "dc-1"
      ⟨false⟩).1.allocatorGroups.length = 1 := by
  constructor
  · rw [(SetUpAllocator_unique_registration.1 envW "/pd"
      [⟨false, "dc-1", ⟨true⟩⟩, ⟨false, "global", ⟨true⟩⟩, ⟨false, "dc-1", ⟨false⟩⟩]).2]
    decide
  · exact (SetUpAllocator_unique_registration.2 envW ⟨[("dc-1", some sampleGroup)], "/pd"⟩
      false "dc-1" ⟨false⟩ (by decide)).1

end PD
